import Mathlib

/-!
# Verification of the eTilbudsavis-CLI offer retrieval and caching pipeline

Shallow embedding of the two Rust source files

* `src/main.rs` — prototype binary: dealer/catalog fetching, the hotspot
  normalizer `create_offer`, and `cost_per_unit`;
* `src/requests/offer.rs` — the `Offer` record with its custom `PartialEq`,
  the retrieval coordinator `retrieve_offers`, the cache store
  (`cache_retrieved_offers` / `retrieve_cached_offers`) and the remote
  merger `retrieve_offers_from_remote`.

Machine floats (`f64`) are modelled exactly by the inductive `F`: a finite
value carries an exact rational (finite JSON numbers and the quotients and
products the code computes on them are represented exactly; IEEE rounding
is not modelled since no claim depends on it), plus the special values
`inf`, `negInf` and `nan` produced by IEEE division by zero.  JSON values
are modelled by `JVal`, mirroring `serde_json::Value` with the number
variants split into integer-backed and float-backed numbers, because
`as_u64` succeeds only on the integer-backed variant.  I/O (HTTP, the
file system, the `UserData` collaborator) is modelled by explicit
environment records supplying each effect's outcome, and effectful
functions return traces recording the effects they performed.
-/

set_option autoImplicit false

/-- Model of an `f64` value: an exact finite rational or one of the IEEE
special values.  There is no negative zero; no modelled claim depends
on the sign of zero. -/
inductive F where
  | finite (q : ℚ)
  | inf
  | negInf
  | nan
  deriving DecidableEq, Repr

namespace F

/-- IEEE 754 division on the model.  The case exercised by the sources is
`finite / finite`: for a zero divisor the result is `nan` when the
dividend is zero and a signed infinity otherwise, exactly as `f64`
division behaves (modulo the unmodelled negative zero). -/
def div : F → F → F
  | finite a, finite b =>
      if b = 0 then
        (if a = 0 then nan else if 0 < a then inf else negInf)
      else finite (a / b)
  | finite _, inf => finite 0
  | finite _, negInf => finite 0
  | inf, finite b => if 0 ≤ b then inf else negInf
  | negInf, finite b => if 0 ≤ b then negInf else inf
  | inf, inf => nan
  | inf, negInf => nan
  | negInf, inf => nan
  | negInf, negInf => nan
  | nan, _ => nan
  | _, nan => nan

/-- A float is finite when it is neither an infinity nor `nan`. -/
def isFinite : F → Bool
  | finite _ => true
  | _ => false

/-- `price ≥ 0` read on the float model. -/
def nonneg : F → Prop
  | finite q => 0 ≤ q
  | inf => True
  | negInf => False
  | nan => False

instance : DecidablePred nonneg := by
  intro f
  cases f <;> simp [nonneg] <;> infer_instance

end F

/-- Model of `serde_json`'s number: JSON integers parse into the
integer-backed variant, numbers written with a decimal point or exponent
into the float-backed one.  `as_u64` succeeds only on a non-negative
integer-backed number; `as_f64` succeeds on both. -/
inductive JNum where
  | int (n : Int)
  | float (q : ℚ)
  deriving DecidableEq, Repr

/-- Model of `serde_json::Value`. -/
inductive JVal where
  | null
  | bool (b : Bool)
  | num (n : JNum)
  | str (s : String)
  | arr (elems : List JVal)
  | obj (fields : List (String × JVal))
  deriving Inhabited, Repr

namespace JVal

/-- `value["key"]` for a string key: on an object, the value of the first
field with that key; `Null` on a missing key or a non-object (the
behaviour of `serde_json`'s `Index` for read access). -/
def idx (v : JVal) (key : String) : JVal :=
  match v with
  | obj fields =>
      match fields.find? (fun p => p.1 == key) with
      | some p => p.2
      | none => null
  | _ => null

/-- `Value::as_f64`: any JSON number, exactly. -/
def as_f64 : JVal → Option ℚ
  | num (.int n) => some (n : ℚ)
  | num (.float q) => some q
  | _ => none

/-- `Value::as_u64`: an integer-backed number that is non-negative
(`u64` overflow is not modelled; the upstream values are small). -/
def as_u64 : JVal → Option Nat
  | num (.int n) => if 0 ≤ n then some n.toNat else none
  | _ => none

/-- `Value::as_str`. -/
def as_str : JVal → Option String
  | str s => some s
  | _ => none

end JVal

/-- `s.split('T').next().unwrap()` — the prefix of `s` before the first
`T` (the whole string when there is none); `next()` on `split` never
returns `None`. -/
def takeUntilT (s : String) : String :=
  String.mk (s.toList.takeWhile (fun c => c ≠ 'T'))

namespace MainRs

/-- The `Offer` struct of `src/main.rs`.  `min_amount`/`max_amount` are
`u32` (always `< 2^32` when built by `create_offer`, which truncates the
`u64` with `as u32`); dates are the raw strings kept by the prototype. -/
structure Offer where
  id : String
  name : String
  price : F
  min_amount : Nat
  max_amount : Nat
  min_size : F
  max_size : F
  unit : String
  start_date : String
  end_date : String
  deriving DecidableEq, Repr

/-- The `Catalog` struct of `src/main.rs`. -/
structure Catalog where
  id : String
  run_from : String
  run_till : String
  dealer_id : String
  offer_count : Nat
  deriving DecidableEq, Repr

/-- `create_offer` of `src/main.rs:114-130`: extracts one `Offer` from a
hotspot JSON value; every `?` on a failed accessor makes the whole record
yield `None`.  The sizes multiply the raw values by the SI factor
(exact rational product standing for the `f64` product); the `u64`
values are truncated with `as u32`; the dates keep the part before `T`. -/
def create_offer (offer_wrapper : JVal) : Option Offer :=
  let offer := offer_wrapper.idx "offer"
  let quantity := offer.idx "quantity"
  do
    let factor ← (((quantity.idx "unit").idx "si").idx "factor").as_f64
    let id ← (offer.idx "id").as_str
    let name ← (offer.idx "heading").as_str
    let price ← ((offer.idx "pricing").idx "price").as_f64
    let min_amount ← ((quantity.idx "pieces").idx "from").as_u64
    let max_amount ← ((quantity.idx "pieces").idx "to").as_u64
    let size_from ← ((quantity.idx "size").idx "from").as_f64
    let size_to ← ((quantity.idx "size").idx "to").as_f64
    let unit ← (((quantity.idx "unit").idx "si").idx "symbol").as_str
    let run_from ← (offer.idx "run_from").as_str
    let run_till ← (offer.idx "run_till").as_str
    pure { id := id
           name := name
           price := F.finite price
           min_amount := min_amount % 2 ^ 32
           max_amount := max_amount % 2 ^ 32
           min_size := F.finite (size_from * factor)
           max_size := F.finite (size_to * factor)
           unit := unit
           start_date := takeUntilT run_from
           end_date := takeUntilT run_till }

/-- The eleven field extractions `create_offer` performs, as a single
presence-and-type check: true exactly when every mapped field is present
and well-typed. -/
def fieldsOk (offer_wrapper : JVal) : Bool :=
  let offer := offer_wrapper.idx "offer"
  let quantity := offer.idx "quantity"
  (((quantity.idx "unit").idx "si").idx "factor").as_f64.isSome
    && (offer.idx "id").as_str.isSome
    && (offer.idx "heading").as_str.isSome
    && ((offer.idx "pricing").idx "price").as_f64.isSome
    && ((quantity.idx "pieces").idx "from").as_u64.isSome
    && ((quantity.idx "pieces").idx "to").as_u64.isSome
    && ((quantity.idx "size").idx "from").as_f64.isSome
    && ((quantity.idx "size").idx "to").as_f64.isSome
    && (((quantity.idx "unit").idx "si").idx "symbol").as_str.isSome
    && (offer.idx "run_from").as_str.isSome
    && (offer.idx "run_till").as_str.isSome

/-- `cost_per_unit` of `src/main.rs:132-138`: the Rust `match` on
`offer.unit.as_str()` with arms `"kg"`, `"l"` and a catch-all, written as
the equivalent decision chain.  The division is IEEE `f64` division —
there is no guard on `max_size`. -/
def cost_per_unit (offer : Offer) : F :=
  if offer.unit = "kg" then F.div offer.price offer.max_size
  else if offer.unit = "l" then F.div offer.price offer.max_size
  else offer.price

/-- Environment for one run of `retrieve_offers_from_dealer`
(`src/main.rs:72-85`): the outcome of each external effect.
`catalogs_send_ok` is whether `request_catalogs`'s `send()` succeeded;
`status_ok` whether the response status was `200 OK`; `catalogs_body` the
outcome of decoding the body as `Vec<Catalog>`; `hotspots id` the outcome
of the hotspot request *and* body decode for catalog `id` (`none` covers
both a transport failure and a JSON decode failure, each of which the
source turns into `None` via `ok()?`). -/
structure FetchEnv where
  catalogs_send_ok : Bool
  status_ok : Bool
  catalogs_body : Option (List Catalog)
  hotspots : String → Option (List JVal)

/-- `retrieve_offers_from_catalog` (`src/main.rs:87-100`): on a
successful hotspot fetch and decode, `filter_map(create_offer)` over the
raw values; otherwise `None`. -/
def retrieve_offers_from_catalog (env : FetchEnv) (catalog : Catalog) :
    Option (List Offer) :=
  (env.hotspots catalog.id).map (fun parsed => parsed.filterMap create_offer)

/-- The `for catalog in catalogs` loop of `retrieve_offers_from_dealer`:
appends each catalog's offers in order, aborting the whole loop with
`None` (the `?` on line 82) as soon as one catalog fails. -/
def collectCatalogOffers (env : FetchEnv) : List Catalog → Option (List Offer)
  | [] => some []
  | c :: rest => do
      let os ← retrieve_offers_from_catalog env c
      let acc ← collectCatalogOffers env rest
      pure (os ++ acc)

/-- `retrieve_offers_from_dealer` (`src/main.rs:72-85`): a failed
`request_catalogs` send is `None`; a non-OK status leaves `catalogs`
empty (yielding `Some []`); an OK status with an undecodable body is
`None`; then the catalog loop. -/
def retrieve_offers_from_dealer (env : FetchEnv) : Option (List Offer) :=
  if env.catalogs_send_ok then
    match (if env.status_ok then env.catalogs_body else some []) with
    | none => none
    | some catalogs => collectCatalogOffers env catalogs
  else none

/-- `main` (`src/main.rs:10-12`) calls
`retrieve_offers_from_dealer(&Dealer::Rema1000).await.unwrap()`: the
program panics exactly when the dealer retrieval returns `None`. -/
def main_panics (env : FetchEnv) : Bool :=
  (retrieve_offers_from_dealer env).isNone

end MainRs

/-- Model of `chrono::NaiveDate` as a calendar triple.  The model covers
the years 0–9999, the range `chrono` formats as a fixed-width four-digit
`%Y`. -/
structure Date where
  year : Nat
  month : Nat
  day : Nat
  deriving DecidableEq, Repr

/-- Gregorian leap year, as `chrono` computes it. -/
def isLeap (y : Nat) : Bool :=
  y % 4 = 0 && (y % 100 ≠ 0 || y % 400 = 0)

/-- Days in a month of the proleptic Gregorian calendar. -/
def daysInMonth (y m : Nat) : Nat :=
  if m = 2 then (if isLeap y then 29 else 28)
  else if m = 4 ∨ m = 6 ∨ m = 9 ∨ m = 11 then 30
  else 31

/-- A calendar-valid date within the modelled year range, the dates
`chrono::NaiveDate` accepts from a `%Y-%m-%d` string with a four-digit
year. -/
def validDate (d : Date) : Prop :=
  1 ≤ d.month ∧ d.month ≤ 12 ∧ 1 ≤ d.day ∧ d.day ≤ daysInMonth d.year d.month
    ∧ d.year ≤ 9999

instance : DecidablePred validDate := by
  intro d
  unfold validDate
  infer_instance

/-- The decimal digit characters. -/
def digitToChar (k : Nat) : Char :=
  if k = 0 then '0'
  else if k = 1 then '1'
  else if k = 2 then '2'
  else if k = 3 then '3'
  else if k = 4 then '4'
  else if k = 5 then '5'
  else if k = 6 then '6'
  else if k = 7 then '7'
  else if k = 8 then '8'
  else if k = 9 then '9'
  else '0'

/-- Inverse of `digitToChar` on digit characters. -/
def charToDigit (c : Char) : Option Nat :=
  if c = '0' then some 0
  else if c = '1' then some 1
  else if c = '2' then some 2
  else if c = '3' then some 3
  else if c = '4' then some 4
  else if c = '5' then some 5
  else if c = '6' then some 6
  else if c = '7' then some 7
  else if c = '8' then some 8
  else if c = '9' then some 9
  else none

/-- `chrono::NaiveDate`'s `Serialize`: the ISO-8601 date form
`YYYY-MM-DD` with zero-padded fixed-width fields. -/
def dateToIso (d : Date) : String :=
  String.mk
    [digitToChar (d.year / 1000 % 10), digitToChar (d.year / 100 % 10),
     digitToChar (d.year / 10 % 10), digitToChar (d.year % 10), '-',
     digitToChar (d.month / 10 % 10), digitToChar (d.month % 10), '-',
     digitToChar (d.day / 10 % 10), digitToChar (d.day % 10)]

/-- Parse a `YYYY-MM-DD` character list, validating the calendar date —
`chrono::NaiveDate`'s `Deserialize` rejects out-of-range components. -/
def parseIso : List Char → Option Date
  | [y1, y2, y3, y4, s1, m1, m2, s2, d1, d2] =>
      if s1 = '-' ∧ s2 = '-' then
        match charToDigit y1, charToDigit y2, charToDigit y3, charToDigit y4,
              charToDigit m1, charToDigit m2, charToDigit d1, charToDigit d2 with
        | some a, some b, some c, some e, some f, some g, some h, some i =>
            let d : Date :=
              { year := 1000 * a + 100 * b + 10 * c + e
                month := 10 * f + g
                day := 10 * h + i }
            if validDate d then some d else none
        | _, _, _, _, _, _, _, _ => none
      else none
  | _ => none

/-- `chrono::NaiveDate`'s `Deserialize` from a JSON string. -/
def isoToDate (s : String) : Option Date :=
  parseIso s.toList

theorem charToDigit_digitToChar (k : Nat) (hk : k < 10) :
    charToDigit (digitToChar k) = some k := by
  interval_cases k <;> rfl

/-- Serialize-then-parse identity for valid dates. -/
theorem isoToDate_dateToIso (d : Date) (hd : validDate d) :
    isoToDate (dateToIso d) = some d := by
  obtain ⟨y, m, dd⟩ := d
  simp only [validDate] at hd
  obtain ⟨hm1, hm2, hd1, hd2, hy⟩ := hd
  have hmon : daysInMonth y m ≤ 31 := by
    unfold daysInMonth
    split_ifs <;> omega
  have hdd : dd ≤ 31 := le_trans hd2 hmon
  have e1 : y / 1000 % 10 < 10 := Nat.mod_lt _ (by omega)
  have e2 : y / 100 % 10 < 10 := Nat.mod_lt _ (by omega)
  have e3 : y / 10 % 10 < 10 := Nat.mod_lt _ (by omega)
  have e4 : y % 10 < 10 := Nat.mod_lt _ (by omega)
  have e5 : m / 10 % 10 < 10 := Nat.mod_lt _ (by omega)
  have e6 : m % 10 < 10 := Nat.mod_lt _ (by omega)
  have e7 : dd / 10 % 10 < 10 := Nat.mod_lt _ (by omega)
  have e8 : dd % 10 < 10 := Nat.mod_lt _ (by omega)
  have ry : 1000 * (y / 1000 % 10) + 100 * (y / 100 % 10) + 10 * (y / 10 % 10)
      + y % 10 = y := by omega
  have rm : 10 * (m / 10 % 10) + m % 10 = m := by omega
  have rd : 10 * (dd / 10 % 10) + dd % 10 = dd := by omega
  simp only [isoToDate, dateToIso, String.toList, parseIso,
    charToDigit_digitToChar _ e1, charToDigit_digitToChar _ e2,
    charToDigit_digitToChar _ e3, charToDigit_digitToChar _ e4,
    charToDigit_digitToChar _ e5, charToDigit_digitToChar _ e6,
    charToDigit_digitToChar _ e7, charToDigit_digitToChar _ e8,
    ry, rm, rd]
  rw [if_pos (by decide)]
  rw [if_pos ⟨hm1, hm2, hd1, hd2, hy⟩]

namespace OfferRs

/-- The `Offer` struct of `src/requests/offer.rs:8-22`, in declaration
order.  `min_amount`/`max_amount` are `u32` (`< 2^32` in Rust; the bound
appears as a hypothesis where it matters); the floats are modelled by
`F`; the dates by `Date`. -/
structure Offer where
  id : String
  name : String
  dealer : String
  price : F
  cost_per_unit : F
  unit : String
  min_size : F
  max_size : F
  min_amount : Nat
  max_amount : Nat
  run_from : Date
  run_till : Date
  deriving DecidableEq, Repr

/-- The custom `PartialEq for Offer` (`src/requests/offer.rs:24-32`):
two offers are equal when their `id`s match, or when their
`(dealer, name, run_from, run_till)` tuples match. -/
def offerEq (a b : Offer) : Prop :=
  a.id = b.id
    ∨ (a.dealer = b.dealer ∧ a.name = b.name ∧ a.run_from = b.run_from
        ∧ a.run_till = b.run_till)

instance : ∀ a b, Decidable (offerEq a b) := by
  intro a b
  unfold offerEq
  infer_instance

/-- Serialization of one `f64` field by `serde_json`: a finite value is
written exactly as a JSON number; an infinity or `nan` is written as
`null` (documented `serde_json` behaviour for non-finite floats). -/
def encF : F → JVal
  | .finite q => .num (.float q)
  | _ => .null

/-- Deserialization of an `f64` field: any JSON number is accepted;
anything else — in particular the `null` written for a non-finite
float — is an error. -/
def decF : JVal → Option F
  | .num (.int n) => some (.finite (n : ℚ))
  | .num (.float q) => some (.finite q)
  | _ => none

/-- Deserialization of a `u32` field: an integer-backed JSON number in
`u32` range. -/
def decU32 : JVal → Option Nat
  | .num (.int n) => if 0 ≤ n ∧ n < 2 ^ 32 then some n.toNat else none
  | _ => none

/-- Deserialization of a `String` field. -/
def decStr : JVal → Option String
  | .str s => some s
  | _ => none

/-- Deserialization of a `NaiveDate` field: an ISO-8601 `YYYY-MM-DD`
string. -/
def decDate : JVal → Option Date
  | .str s => isoToDate s
  | _ => none

/-- The derived `Serialize` for `Offer`: a JSON object with one entry per
field, in declaration order; dates as ISO-8601 strings, `u32`s as
integers, `f64`s via `encF`. -/
def encodeOffer (o : Offer) : JVal :=
  .obj
    [("id", .str o.id), ("name", .str o.name), ("dealer", .str o.dealer),
     ("price", encF o.price), ("cost_per_unit", encF o.cost_per_unit),
     ("unit", .str o.unit), ("min_size", encF o.min_size),
     ("max_size", encF o.max_size),
     ("min_amount", .num (.int o.min_amount)),
     ("max_amount", .num (.int o.max_amount)),
     ("run_from", .str (dateToIso o.run_from)),
     ("run_till", .str (dateToIso o.run_till))]

/-- Field lookup during deserialization (the derived `Deserialize`
resolves fields by name). -/
def getField (j : JVal) (key : String) : Option JVal :=
  match j with
  | .obj fields => (fields.find? (fun p => p.1 == key)).map (fun p => p.2)
  | _ => none

/-- The derived `Deserialize` for `Offer`: every field must be present
and well-typed, otherwise the record is an error. -/
def decodeOffer (j : JVal) : Option Offer := do
  let id ← (getField j "id").bind decStr
  let name ← (getField j "name").bind decStr
  let dealer ← (getField j "dealer").bind decStr
  let price ← (getField j "price").bind decF
  let cost_per_unit ← (getField j "cost_per_unit").bind decF
  let unit ← (getField j "unit").bind decStr
  let min_size ← (getField j "min_size").bind decF
  let max_size ← (getField j "max_size").bind decF
  let min_amount ← (getField j "min_amount").bind decU32
  let max_amount ← (getField j "max_amount").bind decU32
  let run_from ← (getField j "run_from").bind decDate
  let run_till ← (getField j "run_till").bind decDate
  pure { id := id, name := name, dealer := dealer, price := price
         cost_per_unit := cost_per_unit, unit := unit
         min_size := min_size, max_size := max_size
         min_amount := min_amount, max_amount := max_amount
         run_from := run_from, run_till := run_till }

/-- `serde_json::to_string(offers)` at the JSON-value level: a JSON
array, one element per offer, in order. -/
def encodeOffers (offers : List Offer) : JVal :=
  .arr (offers.map encodeOffer)

/-- Element-wise deserialization of the cached array (`Vec<Offer>`
deserialization is sequential and fails on the first bad element). -/
def decodeOfferList : List JVal → Option (List Offer)
  | [] => some []
  | j :: rest => do
      let o ← decodeOffer j
      let os ← decodeOfferList rest
      pure (o :: os)

/-- `serde_json::from_str::<Vec<Offer>>` at the JSON-value level. -/
def decodeOffers : JVal → Option (List Offer)
  | .arr elems => decodeOfferList elems
  | _ => none

/-- The bounds under which the model is exact and the Rust values are
representable: finite floats (a non-finite float serializes to `null`
and fails to load), `u32`-ranged amounts (a Rust `u32` always is), and
calendar-valid dates in the four-digit-year range. -/
def wfOffer (o : Offer) : Prop :=
  o.price.isFinite = true ∧ o.cost_per_unit.isFinite = true
    ∧ o.min_size.isFinite = true ∧ o.max_size.isFinite = true
    ∧ o.min_amount < 2 ^ 32 ∧ o.max_amount < 2 ^ 32
    ∧ validDate o.run_from ∧ validDate o.run_till

instance : DecidablePred wfOffer := by
  intro o
  unfold wfOffer
  infer_instance

/-- Environment for one run of `retrieve_offers`
(`src/requests/offer.rs:92-117`): the outcome of each external effect.
`cache_dir_found` is whether `dirs::cache_dir()` returned a directory;
`disk` the current cache file parsed as a JSON value (`none` covers an
absent or unreadable file and invalid JSON text); `cache_outdated` the
collaborator's `should_update_cache()` answer; `remote` the per-favorite
outputs of the (out-of-srcs) `remote_offers_for_dealer`, in favorites
order; `create_dir_ok` / `write_ok` the outcomes of `create_dir_all` and
`fs::write`. -/
structure Env where
  cache_dir_found : Bool
  disk : Option JVal
  cache_outdated : Bool
  remote : List (List Offer)
  create_dir_ok : Bool
  write_ok : Bool

/-- `retrieve_cached_offers` (`src/requests/offer.rs:133-139`): find the
cache directory, read the file, decode the JSON into `Vec<Offer>`; each
step's failure is an error with the source's context message. -/
def retrieve_cached_offers (e : Env) : Except String (List Offer) :=
  if e.cache_dir_found then
    match e.disk with
    | none => .error "Offer cache not found"
    | some j =>
        match decodeOffers j with
        | none => .error "Offer cache has invalid JSON"
        | some offers => .ok offers
  else .error "Could not find cache dir"

/-- Whether `cache_retrieved_offers` runs to completion: the directory is
found, `create_dir_all` succeeds and `fs::write` succeeds
(`serde_json::to_string` cannot fail on this type). -/
def writeChainOk (e : Env) : Bool :=
  e.cache_dir_found && e.create_dir_ok && e.write_ok

/-- Outcome of `cache_retrieved_offers` (`src/requests/offer.rs:119-131`)
as `(succeeded, disk after, cache_updated invoked)`: on success the file
holds exactly the serialized offers and `userdata.cache_updated()` has
been called; on any failure the file is unchanged and `cache_updated`
is not called. -/
def cache_retrieved_offers (e : Env) (offers : List Offer) :
    Bool × Option JVal × Bool :=
  if writeChainOk e then (true, some (encodeOffers offers), true)
  else (false, e.disk, false)

/-- `retrieve_offers_from_remote` (`src/requests/offer.rs:141-152`):
`join_all` the per-favorite futures, then `flatten().collect()` — plain
concatenation of the per-dealer results.  The per-dealer fetch itself
(`remote_offers_for_dealer`) is not in the sources; its outputs are the
environment's `remote` field. -/
def retrieve_offers_from_remote (remote : List (List Offer)) : List Offer :=
  remote.flatten

/-- What one `retrieve_offers` run returned and did: its result, whether
it fetched from the network, how many messages it printed to standard
error, whether `cache_updated()` was invoked, and the cache file
afterwards. -/
structure Trace where
  result : List Offer
  remote_fetched : Bool
  stderr_count : Nat
  cache_updated : Bool
  disk_after : Option JVal
  deriving Repr

/-- `retrieve_offers` (`src/requests/offer.rs:92-117`): on a successful
cache load, refresh only when `favorites_changed` or the collaborator
reports the cache outdated, otherwise return the cached offers; on a
failed load, refresh.  A refresh fetches remotely, attempts the cache
write, prints the write error to standard error if any, and returns the
fresh offers either way. -/
def retrieve_offers (favorites_changed : Bool) (e : Env) : Trace :=
  match retrieve_cached_offers e with
  | .ok cached_offers =>
      if favorites_changed || e.cache_outdated then
        let offers := retrieve_offers_from_remote e.remote
        let write := cache_retrieved_offers e offers
        { result := offers, remote_fetched := true
          stderr_count := if write.1 then 0 else 1
          cache_updated := write.2.2, disk_after := write.2.1 }
      else
        { result := cached_offers, remote_fetched := false
          stderr_count := 0, cache_updated := false, disk_after := e.disk }
  | .error _ =>
      let offers := retrieve_offers_from_remote e.remote
      let write := cache_retrieved_offers e offers
      { result := offers, remote_fetched := true
        stderr_count := if write.1 then 0 else 1
        cache_updated := write.2.2, disk_after := write.2.1 }

/-- Whether `retrieve_cached_offers` succeeded. -/
def loadOk (e : Env) : Bool :=
  match retrieve_cached_offers e with
  | .ok _ => true
  | .error _ => false

end OfferRs

/-! ## Concrete inputs used by counterexamples and witnesses -/

/-- A hotspot JSON value with every mapped field present and well-typed,
`unit = "kg"` and `size.to = 0`. -/
def hotspotKgZero : JVal :=
  .obj [("offer", .obj
    [("id", .str "x1"), ("heading", .str "Milk"),
     ("pricing", .obj [("price", .num (.float 10))]),
     ("quantity", .obj
       [("pieces", .obj [("from", .num (.int 1)), ("to", .num (.int 1))]),
        ("size", .obj [("from", .num (.float 0)), ("to", .num (.float 0))]),
        ("unit", .obj [("si", .obj
          [("factor", .num (.float 1)), ("symbol", .str "kg")])])]),
     ("run_from", .str "2024-01-01T00:00:00Z"),
     ("run_till", .str "2024-01-07T00:00:00Z")])]

/-- The offer `create_offer` extracts from `hotspotKgZero` (the sizes
are written as the literal products the extraction computes). -/
def kgZeroOffer : MainRs.Offer :=
  { id := "x1", name := "Milk", price := F.finite 10
    min_amount := 1 % 2 ^ 32, max_amount := 1 % 2 ^ 32
    min_size := F.finite (0 * 1), max_size := F.finite (0 * 1), unit := "kg"
    start_date := "2024-01-01", end_date := "2024-01-07" }

/-- Offers used for the equality-relation claims: `eqA` and `eqB` share
an `id`; `eqB` and `eqC` share the `(dealer, name, run_from, run_till)`
tuple; `eqA` and `eqC` share neither. -/
def eqA : OfferRs.Offer :=
  { id := "i1", name := "n1", dealer := "d1", price := F.finite 1
    cost_per_unit := F.finite 1, unit := "kg", min_size := F.finite 1
    max_size := F.finite 1, min_amount := 1, max_amount := 1
    run_from := ⟨2024, 1, 1⟩, run_till := ⟨2024, 1, 7⟩ }

/-- Same `id` as `eqA`, different tuple. -/
def eqB : OfferRs.Offer :=
  { eqA with name := "n2" }

/-- Same tuple as `eqB`, different `id`. -/
def eqC : OfferRs.Offer :=
  { eqB with id := "i2" }

/-! ## Claims -/

/-- C9: the `PartialEq` relation on `Offer` — equal `id`s or equal
`(dealer, name, run_from, run_till)` tuples — is reflexive and
symmetric, but not transitive, despite `impl Eq for Offer` declaring
total equality. -/
theorem offerEq_refl_symm_not_trans :
    (∀ a : OfferRs.Offer, OfferRs.offerEq a a)
  ∧ (∀ a b : OfferRs.Offer, OfferRs.offerEq a b ↔ OfferRs.offerEq b a)
  ∧ ¬ (∀ a b c : OfferRs.Offer,
        OfferRs.offerEq a b → OfferRs.offerEq b c → OfferRs.offerEq a c) := by
  refine ⟨fun a => Or.inl rfl, fun a b => ?_, fun h => ?_⟩
  · unfold OfferRs.offerEq
    constructor <;>
      rintro (h | ⟨h1, h2, h3, h4⟩) <;>
        first
          | exact Or.inl h.symm
          | exact Or.inr ⟨h1.symm, h2.symm, h3.symm, h4.symm⟩
  · exact absurd (h eqA eqB eqC (by decide) (by decide)) (by decide)

/-- Witness for C9: the relation at concrete offers, via the theorem. -/
theorem offerEq_refl_symm_not_trans_witness :
    OfferRs.offerEq eqA eqA ∧ (OfferRs.offerEq eqA eqB ↔ OfferRs.offerEq eqB eqA) :=
  ⟨offerEq_refl_symm_not_trans.1 eqA, offerEq_refl_symm_not_trans.2.1 eqA eqB⟩

/-- C2 counterexample: `create_offer` can produce an offer with
`unit = "kg"` and `max_size = 0`, and on it `cost_per_unit` divides
anyway, yielding infinity instead of falling back to `price`. -/
theorem costPerUnit_zero_divisor_cex :
    MainRs.create_offer hotspotKgZero = some kgZeroOffer
  ∧ kgZeroOffer.unit = "kg"
  ∧ kgZeroOffer.max_size = F.finite 0
  ∧ MainRs.cost_per_unit kgZeroOffer = F.inf
  ∧ MainRs.cost_per_unit kgZeroOffer ≠ kgZeroOffer.price
  ∧ (MainRs.cost_per_unit kgZeroOffer).isFinite = false := by
  have hdiv : MainRs.cost_per_unit kgZeroOffer = F.inf := by
    show F.div (F.finite 10) (F.finite (0 * 1)) = F.inf
    norm_num [F.div]
  refine ⟨rfl, rfl, by norm_num [kgZeroOffer], hdiv, ?_, by rw [hdiv]; rfl⟩
  rw [hdiv]
  exact fun h => F.noConfusion h

/-- C2 amended: `cost_per_unit` equals `price / max_size` (IEEE `f64`
division, with no guard on a zero `max_size`) whenever `unit` is `"kg"`
or `"l"`, and equals `price` otherwise; with a zero `max_size` the
division yields an infinity or `nan`. -/
theorem costPerUnit_formula (o : MainRs.Offer) :
    ((o.unit = "kg" ∨ o.unit = "l") →
        MainRs.cost_per_unit o = F.div o.price o.max_size)
  ∧ (o.unit ≠ "kg" → o.unit ≠ "l" → MainRs.cost_per_unit o = o.price) := by
  unfold MainRs.cost_per_unit
  constructor
  · rintro (h | h)
    · rw [if_pos h]
    · rw [if_neg (by rw [h]; decide), if_pos h]
  · intro h1 h2
    rw [if_neg h1, if_neg h2]

/-- Witness for C2: the amended formula at the concrete `"kg"` offer. -/
theorem costPerUnit_formula_witness :
    MainRs.cost_per_unit kgZeroOffer
      = F.div kgZeroOffer.price kgZeroOffer.max_size :=
  (costPerUnit_formula kgZeroOffer).1 (Or.inl rfl)

/-- C3: `retrieve_offers` returns the cached sequence without a remote
fetch exactly when the cache loads successfully, `favorites_changed` is
false and the collaborator reports the cache fresh; a failed cache load
always triggers a remote refresh, and `favorites_changed = true` always
triggers a remote refresh. -/
theorem retrieveOffers_cache_decision (fc : Bool) (e : OfferRs.Env) :
    ((OfferRs.retrieve_offers fc e).remote_fetched
        = (fc || e.cache_outdated || !(OfferRs.loadOk e)))
  ∧ (∀ cached, OfferRs.retrieve_cached_offers e = .ok cached → fc = false →
      e.cache_outdated = false → (OfferRs.retrieve_offers fc e).result = cached)
  ∧ (OfferRs.loadOk e = false →
      (OfferRs.retrieve_offers fc e).remote_fetched = true)
  ∧ (fc = true → (OfferRs.retrieve_offers fc e).remote_fetched = true) := by
  cases h : OfferRs.retrieve_cached_offers e with
  | error msg =>
      simp [OfferRs.retrieve_offers, OfferRs.loadOk, h]
  | ok cached =>
      cases fc <;> cases hco : e.cache_outdated <;>
        simp [OfferRs.retrieve_offers, OfferRs.loadOk, h, hco]

/-- Environment with a readable, fresh, empty cache. -/
def freshCacheEnv : OfferRs.Env :=
  { cache_dir_found := true, disk := some (JVal.arr [])
    cache_outdated := false, remote := [[eqA]], create_dir_ok := true
    write_ok := true }

/-- Witness for C3: on a fresh readable cache with unchanged favorites,
the cached (empty) sequence is returned as-is. -/
theorem retrieveOffers_cache_decision_witness :
    (OfferRs.retrieve_offers false freshCacheEnv).result = [] :=
  (retrieveOffers_cache_decision false freshCacheEnv).2.1 [] rfl rfl rfl

/-- `create_offer` succeeds exactly when every mapped field is present
and well-typed: the eleven `?` extractions are its only failure points. -/
theorem create_offer_isSome_eq (v : JVal) :
    (MainRs.create_offer v).isSome = MainRs.fieldsOk v := by
  simp only [MainRs.create_offer, MainRs.fieldsOk]
  generalize
    (((((v.idx "offer").idx "quantity").idx "unit").idx "si").idx
      "factor").as_f64 = A,
    ((v.idx "offer").idx "id").as_str = B,
    ((v.idx "offer").idx "heading").as_str = C,
    (((v.idx "offer").idx "pricing").idx "price").as_f64 = D,
    ((((v.idx "offer").idx "quantity").idx "pieces").idx "from").as_u64 = E,
    ((((v.idx "offer").idx "quantity").idx "pieces").idx "to").as_u64 = G,
    ((((v.idx "offer").idx "quantity").idx "size").idx "from").as_f64 = H,
    ((((v.idx "offer").idx "quantity").idx "size").idx "to").as_f64 = I2,
    (((((v.idx "offer").idx "quantity").idx "unit").idx "si").idx
      "symbol").as_str = J,
    ((v.idx "offer").idx "run_from").as_str = K,
    ((v.idx "offer").idx "run_till").as_str = L
  rcases A with _ | a
  · rfl
  rcases B with _ | b
  · rfl
  rcases C with _ | c
  · rfl
  rcases D with _ | d
  · rfl
  rcases E with _ | e
  · rfl
  rcases G with _ | g
  · rfl
  rcases H with _ | h
  · rfl
  rcases I2 with _ | i
  · rfl
  rcases J with _ | j
  · rfl
  rcases K with _ | k
  · rfl
  rcases L with _ | l
  · rfl
  rfl

/-- A hotspot JSON value with every mapped field present and well-typed
but a negative price and an inverted validity window. -/
def hotspotBadInv : JVal :=
  .obj [("offer", .obj
    [("id", .str "x2"), ("heading", .str "Eggs"),
     ("pricing", .obj [("price", .num (.float (-1)))]),
     ("quantity", .obj
       [("pieces", .obj [("from", .num (.int 1)), ("to", .num (.int 1))]),
        ("size", .obj [("from", .num (.float 1)), ("to", .num (.float 1))]),
        ("unit", .obj [("si", .obj
          [("factor", .num (.float 1)), ("symbol", .str "kg")])])]),
     ("run_from", .str "2024-05-02T00:00:00Z"),
     ("run_till", .str "2024-05-01T00:00:00Z")])]

/-- The offer `create_offer` extracts from `hotspotBadInv`. -/
def badInvOffer : MainRs.Offer :=
  { id := "x2", name := "Eggs", price := F.finite (-1)
    min_amount := 1 % 2 ^ 32, max_amount := 1 % 2 ^ 32
    min_size := F.finite (1 * 1), max_size := F.finite (1 * 1), unit := "kg"
    start_date := "2024-05-02", end_date := "2024-05-01" }

/-- C4 counterexample: normalization performs no invariant validation —
a raw record with a negative price and `run_till` before `run_from`
yields an offer instead of being dropped. -/
theorem createOffer_invariant_cex :
    MainRs.create_offer hotspotBadInv = some badInvOffer
  ∧ MainRs.create_offer hotspotBadInv ≠ none
  ∧ ¬ F.nonneg badInvOffer.price
  ∧ isoToDate badInvOffer.start_date = some ⟨2024, 5, 2⟩
  ∧ isoToDate badInvOffer.end_date = some ⟨2024, 5, 1⟩ := by
  have h0 : MainRs.create_offer hotspotBadInv = some badInvOffer := rfl
  refine ⟨h0, by rw [h0]; exact fun h => Option.noConfusion h, ?_, rfl, rfl⟩
  show ¬ F.nonneg (F.finite (-1))
  simp [F.nonneg]

/-- C4 amended: normalization validates only field presence and types —
a raw record yields an offer exactly when every mapped field extracts,
and no ordering, sign, or non-emptiness invariant is checked, so offers
violating them are propagated rather than dropped. -/
theorem createOffer_no_invariant_check (v : JVal) :
    (MainRs.create_offer v).isSome = MainRs.fieldsOk v :=
  create_offer_isSome_eq v

/-- C6: a hotspot with any missing or wrong-typed mapped field yields
nothing, and dropping it is local — the surrounding records of the same
catalog normalize exactly as they would without it (and each record
contributes at most its own single offer). -/
theorem createOffer_silent_drop (v : JVal) (pre post : List JVal) :
    (MainRs.fieldsOk v = false → MainRs.create_offer v = none)
  ∧ (pre ++ v :: post).filterMap MainRs.create_offer
      = pre.filterMap MainRs.create_offer ++ (MainRs.create_offer v).toList
          ++ post.filterMap MainRs.create_offer := by
  constructor
  · intro hbad
    cases hc : MainRs.create_offer v with
    | none => rfl
    | some o =>
        have h2 := create_offer_isSome_eq v
        rw [hbad, hc] at h2
        simp at h2
  · cases h : MainRs.create_offer v with
    | none => simp [List.filterMap_append, List.filterMap_cons, h]
    | some o => simp [List.filterMap_append, List.filterMap_cons, h]

/-- Environment whose two favorite dealers each contribute one offer,
the two offers sharing an `id` (the cache is absent, forcing a
refresh). -/
def dupEnv : OfferRs.Env :=
  { cache_dir_found := false, disk := none, cache_outdated := true
    remote := [[eqA], [eqB]], create_dir_ok := false, write_ok := false }

/-- C1 counterexample: a refresh returns the two distinct offers `eqA`
and `eqB` even though their `id`s match — the coordinator's merged
result is not deduplicated. -/
theorem retrieveOffers_no_dedup_cex :
    (OfferRs.retrieve_offers true dupEnv).result = [eqA, eqB]
  ∧ eqA.id = eqB.id
  ∧ eqA ≠ eqB := by
  exact ⟨rfl, rfl, by decide⟩

/-- C1 amended: the merged result of every refresh is the plain
concatenation of the per-dealer sequences in favorites order — no
deduplication and no sorting is applied by the coordinator. -/
theorem retrieveOffers_concat (fc : Bool) (e : OfferRs.Env) :
    (OfferRs.retrieve_offers fc e).remote_fetched = true →
    (OfferRs.retrieve_offers fc e).result = e.remote.flatten := by
  cases h : OfferRs.retrieve_cached_offers e <;>
    cases fc <;> cases hco : e.cache_outdated <;>
      simp [OfferRs.retrieve_offers, OfferRs.retrieve_offers_from_remote,
        h, hco]

/-- Witness for C1's amended claim at the concrete environment. -/
theorem retrieveOffers_concat_witness :
    (OfferRs.retrieve_offers true dupEnv).result = dupEnv.remote.flatten :=
  retrieveOffers_concat true dupEnv rfl

/-- C8: on every refresh the freshly retrieved sequence is returned to
the caller whether or not the cache write succeeds; a failed write
prints one message to standard error, a successful one prints none; and
the collaborator's `cache_updated()` is invoked exactly on the refreshes
whose cache write succeeds (never on a cache hit). -/
theorem refresh_write_failure (fc : Bool) (e : OfferRs.Env) :
    ((OfferRs.retrieve_offers fc e).remote_fetched = true →
       ((OfferRs.retrieve_offers fc e).result
           = OfferRs.retrieve_offers_from_remote e.remote
        ∧ (OfferRs.retrieve_offers fc e).cache_updated = OfferRs.writeChainOk e
        ∧ (OfferRs.writeChainOk e = false →
            (OfferRs.retrieve_offers fc e).stderr_count = 1)
        ∧ (OfferRs.writeChainOk e = true →
            (OfferRs.retrieve_offers fc e).stderr_count = 0)))
  ∧ ((OfferRs.retrieve_offers fc e).remote_fetched = false →
       (OfferRs.retrieve_offers fc e).cache_updated = false) := by
  cases h : OfferRs.retrieve_cached_offers e <;>
    cases fc <;> cases hco : e.cache_outdated <;>
      cases hw : OfferRs.writeChainOk e <;>
        simp [OfferRs.retrieve_offers, OfferRs.cache_retrieved_offers,
          h, hco, hw]

/-- Environment forcing a refresh whose `fs::write` fails. -/
def wfailEnv : OfferRs.Env :=
  { cache_dir_found := true, disk := some (JVal.arr [])
    cache_outdated := true, remote := [[eqA]], create_dir_ok := true
    write_ok := false }

/-- Witness for C8: with a failing write, one stderr message, the fresh
result still returned, and no `cache_updated()` call. -/
theorem refresh_write_failure_witness :
    (OfferRs.retrieve_offers true wfailEnv).stderr_count = 1
  ∧ (OfferRs.retrieve_offers true wfailEnv).result
      = OfferRs.retrieve_offers_from_remote wfailEnv.remote
  ∧ (OfferRs.retrieve_offers true wfailEnv).cache_updated = false :=
  ⟨((refresh_write_failure true wfailEnv).1 rfl).2.2.1 rfl,
   ((refresh_write_failure true wfailEnv).1 rfl).1,
   ((refresh_write_failure true wfailEnv).1 rfl).2.1⟩

/-- C10: every refresh whose write chain succeeds overwrites the cache
file with exactly the serialization of what the refresh produced; in
particular, when every dealer contributes nothing the file becomes the
empty JSON array, whatever it held before. -/
theorem refresh_overwrites_cache (fc : Bool) (e : OfferRs.Env) :
    (OfferRs.retrieve_offers fc e).remote_fetched = true →
    OfferRs.writeChainOk e = true →
    ((OfferRs.retrieve_offers fc e).disk_after
        = some (OfferRs.encodeOffers (OfferRs.retrieve_offers_from_remote
            e.remote))
     ∧ (e.remote.flatten = [] →
         (OfferRs.retrieve_offers fc e).disk_after = some (JVal.arr []))) := by
  intro hf hw
  have hout : (OfferRs.retrieve_offers fc e).disk_after
      = some (OfferRs.encodeOffers (OfferRs.retrieve_offers_from_remote
          e.remote)) := by
    revert hf
    cases h : OfferRs.retrieve_cached_offers e <;>
      cases fc <;> cases hco : e.cache_outdated <;>
        simp [OfferRs.retrieve_offers, OfferRs.cache_retrieved_offers,
          h, hco, hw]
  refine ⟨hout, fun hempty => ?_⟩
  rw [hout]
  simp [OfferRs.encodeOffers, OfferRs.retrieve_offers_from_remote, hempty]

/-- Environment with an existing valid cache, an expired TTL, and every
dealer fetch contributing nothing. -/
def emptyRemoteEnv : OfferRs.Env :=
  { cache_dir_found := true, disk := some (OfferRs.encodeOffers [eqA])
    cache_outdated := true, remote := [[], []], create_dir_ok := true
    write_ok := true }

/-- Witness for C10: the previously valid cache is replaced by the empty
JSON array. -/
theorem refresh_overwrites_cache_witness :
    (OfferRs.retrieve_offers false emptyRemoteEnv).disk_after
      = some (JVal.arr []) :=
  (refresh_overwrites_cache false emptyRemoteEnv rfl rfl).2 rfl

/-- The catalog loop succeeds when every catalog's hotspot fetch does,
returning the concatenation of the per-catalog normalized offers. -/
theorem collectCatalogOffers_all_ok (e : MainRs.FetchEnv) (cats : List MainRs.Catalog)
    (h : ∀ c ∈ cats, (e.hotspots c.id).isSome = true) :
    MainRs.collectCatalogOffers e cats
      = some ((cats.map (fun c =>
          ((e.hotspots c.id).getD []).filterMap MainRs.create_offer)).flatten) := by
  induction cats with
  | nil => rfl
  | cons c rest ih =>
      obtain ⟨l, hl⟩ := Option.isSome_iff_exists.mp (h c (by simp))
      have ih2 := ih (fun x hx => h x (by simp [hx]))
      simp [MainRs.collectCatalogOffers, MainRs.retrieve_offers_from_catalog,
        hl, ih2]

/-- One failed hotspot fetch anywhere in the catalog list makes the
whole loop yield `None`. -/
theorem collectCatalogOffers_fail (e : MainRs.FetchEnv) (cats : List MainRs.Catalog)
    (c : MainRs.Catalog) (hmem : c ∈ cats) (hfail : e.hotspots c.id = none) :
    MainRs.collectCatalogOffers e cats = none := by
  induction cats with
  | nil => cases hmem
  | cons a rest ih =>
      rcases List.mem_cons.mp hmem with rfl | hmem2
      · simp [MainRs.collectCatalogOffers, MainRs.retrieve_offers_from_catalog,
          hfail]
      · cases ha : MainRs.retrieve_offers_from_catalog e a with
        | none => simp [MainRs.collectCatalogOffers, ha]
        | some l => simp [MainRs.collectCatalogOffers, ha, ih hmem2]

/-- A catalog whose hotspot fetch succeeds, and one whose fetch fails. -/
def catOk : MainRs.Catalog :=
  { id := "c1", run_from := "2024-01-01", run_till := "2024-01-07"
    dealer_id := "11deC", offer_count := 1 }

/-- The catalog whose hotspot request fails in `mixedFetchEnv`. -/
def catBad : MainRs.Catalog :=
  { catOk with id := "c2" }

/-- Environment where the catalog listing succeeds with two catalogs,
the first catalog's hotspot fetch succeeds with one well-formed record,
and the second catalog's hotspot fetch fails. -/
def mixedFetchEnv : MainRs.FetchEnv :=
  { catalogs_send_ok := true, status_ok := true
    catalogs_body := some [catOk, catBad]
    hotspots := fun cid => if cid = "c1" then some [hotspotKgZero] else none }

/-- Environment where the transport of the catalog request itself
fails. -/
def sendFailEnv : MainRs.FetchEnv :=
  { catalogs_send_ok := false, status_ok := false, catalogs_body := none
    hotspots := fun _ => none }

/-- C5 counterexample: with one catalog fetched successfully (yielding
an offer) and a second catalog's hotspot request failing, the dealer
retrieval returns `None` — not a shorter offer list — and `main`'s
`unwrap()` turns that `None` into a panic; likewise a transport failure
on the catalog request is `None`, not an empty sequence. -/
theorem dealer_failure_cex :
    MainRs.retrieve_offers_from_catalog mixedFetchEnv catOk
        = some [kgZeroOffer]
  ∧ MainRs.retrieve_offers_from_dealer mixedFetchEnv = none
  ∧ MainRs.main_panics mixedFetchEnv = true
  ∧ MainRs.retrieve_offers_from_dealer sendFailEnv = none
  ∧ MainRs.main_panics sendFailEnv = true :=
  ⟨rfl, rfl, rfl, rfl, rfl⟩

/-- C5 amended: only a non-success HTTP status on the catalog request is
non-fatal (it yields `Some` of the empty sequence).  A transport failure
on the catalog request, an undecodable catalog body, or a failure of any
single catalog's hotspot request makes `retrieve_offers_from_dealer`
return `None` — discarding even the successfully fetched catalogs — and
`main` unwraps that `None` into a panic; when every request succeeds the
dealer yields the concatenation of the per-catalog normalized offers. -/
theorem dealer_failure_behavior (e : MainRs.FetchEnv) :
    (e.catalogs_send_ok = false → MainRs.retrieve_offers_from_dealer e = none)
  ∧ (e.catalogs_send_ok = true → e.status_ok = false →
      MainRs.retrieve_offers_from_dealer e = some [])
  ∧ (e.catalogs_send_ok = true → e.status_ok = true → e.catalogs_body = none →
      MainRs.retrieve_offers_from_dealer e = none)
  ∧ (∀ cats, e.catalogs_send_ok = true → e.status_ok = true →
      e.catalogs_body = some cats →
      (∀ c ∈ cats, (e.hotspots c.id).isSome = true) →
      MainRs.retrieve_offers_from_dealer e
        = some ((cats.map (fun c =>
            ((e.hotspots c.id).getD []).filterMap MainRs.create_offer)).flatten))
  ∧ (∀ cats c, e.catalogs_send_ok = true → e.status_ok = true →
      e.catalogs_body = some cats → c ∈ cats → e.hotspots c.id = none →
      MainRs.retrieve_offers_from_dealer e = none) := by
  refine ⟨fun h1 => ?_, fun h1 h2 => ?_, fun h1 h2 h3 => ?_,
    fun cats h1 h2 h3 h4 => ?_, fun cats c h1 h2 h3 hmem hfail => ?_⟩
  · simp [MainRs.retrieve_offers_from_dealer, h1]
  · simp [MainRs.retrieve_offers_from_dealer, h1, h2,
      MainRs.collectCatalogOffers]
  · simp [MainRs.retrieve_offers_from_dealer, h1, h2, h3]
  · simp [MainRs.retrieve_offers_from_dealer, h1, h2, h3,
      collectCatalogOffers_all_ok e cats h4]
  · simp [MainRs.retrieve_offers_from_dealer, h1, h2, h3,
      collectCatalogOffers_fail e cats c hmem hfail]

/-- Environment in which every request succeeds. -/
def allOkEnv : MainRs.FetchEnv :=
  { catalogs_send_ok := true, status_ok := true, catalogs_body := some [catOk]
    hotspots := fun _ => some [hotspotKgZero] }

/-- Witness for C5's amended claim: the fatal transport-failure case and
the all-success case, at concrete environments. -/
theorem dealer_failure_behavior_witness :
    MainRs.retrieve_offers_from_dealer sendFailEnv = none
  ∧ MainRs.retrieve_offers_from_dealer allOkEnv
      = some (([catOk].map (fun c =>
          ((allOkEnv.hotspots c.id).getD []).filterMap
            MainRs.create_offer)).flatten) :=
  ⟨(dealer_failure_behavior sendFailEnv).1 rfl,
   (dealer_failure_behavior allOkEnv).2.2.2.1 [catOk] rfl rfl rfl
     (fun _ _ => rfl)⟩

/-- A finite float field deserializes back to itself. -/
theorem decF_encF (f : F) (h : f.isFinite = true) :
    OfferRs.decF (OfferRs.encF f) = some f := by
  cases f
  case finite q => rfl
  all_goals simp [F.isFinite] at h

/-- A `u32`-ranged amount deserializes back to itself. -/
theorem decU32_int (n : Nat) (h : n < 2 ^ 32) :
    OfferRs.decU32 (.num (.int (n : Int))) = some n := by
  rw [OfferRs.decU32, if_pos ⟨Int.natCast_nonneg n, by exact_mod_cast h⟩]
  simp

/-- Feeding a successful step into a monadic `Option` continuation. -/
theorem bindSomeIntro {A B : Type} {x : Option A} {f : A → Option B} {a : A}
    {b : B} (h1 : x = some a) (h2 : f a = some b) : x >>= f = some b := by
  rw [h1]
  exact h2

set_option maxRecDepth 4096 in
/-- One serialized offer deserializes back to itself under the
representability bounds. -/
theorem decodeOffer_encodeOffer (o : OfferRs.Offer) (h : OfferRs.wfOffer o) :
    OfferRs.decodeOffer (OfferRs.encodeOffer o) = some o := by
  obtain ⟨hp, hc, hmn, hmx, ha1, ha2, hd1, hd2⟩ := h
  have s1 : (OfferRs.getField (OfferRs.encodeOffer o) "id").bind OfferRs.decStr
      = some o.id := rfl
  have s2 : (OfferRs.getField (OfferRs.encodeOffer o) "name").bind OfferRs.decStr
      = some o.name := rfl
  have s3 : (OfferRs.getField (OfferRs.encodeOffer o) "dealer").bind OfferRs.decStr
      = some o.dealer := rfl
  have s4 : (OfferRs.getField (OfferRs.encodeOffer o) "price").bind OfferRs.decF
      = some o.price := decF_encF o.price hp
  have s5 : (OfferRs.getField (OfferRs.encodeOffer o) "cost_per_unit").bind
      OfferRs.decF = some o.cost_per_unit := decF_encF o.cost_per_unit hc
  have s6 : (OfferRs.getField (OfferRs.encodeOffer o) "unit").bind OfferRs.decStr
      = some o.unit := rfl
  have s7 : (OfferRs.getField (OfferRs.encodeOffer o) "min_size").bind
      OfferRs.decF = some o.min_size := decF_encF o.min_size hmn
  have s8 : (OfferRs.getField (OfferRs.encodeOffer o) "max_size").bind
      OfferRs.decF = some o.max_size := decF_encF o.max_size hmx
  have s9 : (OfferRs.getField (OfferRs.encodeOffer o) "min_amount").bind
      OfferRs.decU32 = some o.min_amount := by
    rw [show OfferRs.getField (OfferRs.encodeOffer o) "min_amount"
          = some (.num (.int o.min_amount)) from rfl, Option.some_bind]
    exact decU32_int o.min_amount ha1
  have s10 : (OfferRs.getField (OfferRs.encodeOffer o) "max_amount").bind
      OfferRs.decU32 = some o.max_amount := by
    rw [show OfferRs.getField (OfferRs.encodeOffer o) "max_amount"
          = some (.num (.int o.max_amount)) from rfl, Option.some_bind]
    exact decU32_int o.max_amount ha2
  have s11 : (OfferRs.getField (OfferRs.encodeOffer o) "run_from").bind
      OfferRs.decDate = some o.run_from := by
    rw [show OfferRs.getField (OfferRs.encodeOffer o) "run_from"
          = some (.str (dateToIso o.run_from)) from rfl, Option.some_bind]
    exact isoToDate_dateToIso o.run_from hd1
  have s12 : (OfferRs.getField (OfferRs.encodeOffer o) "run_till").bind
      OfferRs.decDate = some o.run_till := by
    rw [show OfferRs.getField (OfferRs.encodeOffer o) "run_till"
          = some (.str (dateToIso o.run_till)) from rfl, Option.some_bind]
    exact isoToDate_dateToIso o.run_till hd2
  refine bindSomeIntro s1 ?_
  refine bindSomeIntro s2 ?_
  refine bindSomeIntro s3 ?_
  refine bindSomeIntro s4 ?_
  refine bindSomeIntro s5 ?_
  refine bindSomeIntro s6 ?_
  refine bindSomeIntro s7 ?_
  refine bindSomeIntro s8 ?_
  refine bindSomeIntro s9 ?_
  refine bindSomeIntro s10 ?_
  refine bindSomeIntro s11 ?_
  refine bindSomeIntro s12 ?_
  rfl

/-- A serialized offer sequence deserializes back to itself. -/
theorem decodeOffers_encodeOffers (offers : List OfferRs.Offer)
    (h : ∀ o ∈ offers, OfferRs.wfOffer o) :
    OfferRs.decodeOffers (OfferRs.encodeOffers offers) = some offers := by
  induction offers with
  | nil => rfl
  | cons o rest ih =>
      have h1 := decodeOffer_encodeOffer o (h o (by simp))
      have h2 := ih (fun x hx => h x (by simp [hx]))
      simp only [OfferRs.encodeOffers, OfferRs.decodeOffers, List.map_cons,
        OfferRs.decodeOfferList, h1] at h2 ⊢
      simp [h2]

/-- An offer whose `cost_per_unit` is infinite — e.g. the quotient of a
positive price by a zero `max_size` (§C2). -/
def infOffer : OfferRs.Offer :=
  { eqA with cost_per_unit := F.inf }

/-- Environment whose cache file holds the serialization of
`[infOffer]`. -/
def infCacheEnv : OfferRs.Env :=
  { cache_dir_found := true, disk := some (OfferRs.encodeOffers [infOffer])
    cache_outdated := false, remote := [], create_dir_ok := true
    write_ok := true }

/-- C7 counterexample: an offer with a non-finite float serializes to
`null` in that field, and loading the stored sequence then fails instead
of returning the sequence — the round-trip does not hold for every
sequence of offers. -/
theorem cache_roundtrip_cex :
    OfferRs.encF infOffer.cost_per_unit = JVal.null
  ∧ OfferRs.decodeOffers (OfferRs.encodeOffers [infOffer]) = none
  ∧ OfferRs.retrieve_cached_offers infCacheEnv
      = .error "Offer cache has invalid JSON" :=
  ⟨rfl, rfl, rfl⟩

/-- C7 amended: for every sequence of offers that is representable on
the Rust side — all `f64` fields finite (a non-finite float serializes
to `null` and fails to load), amounts in `u32` range, calendar-valid
dates with four-digit years — storing then loading returns exactly the
stored sequence, order included; and each offer's dates are serialized
as ISO-8601 `YYYY-MM-DD` strings. -/
theorem cache_roundtrip (offers : List OfferRs.Offer)
    (h : ∀ o ∈ offers, OfferRs.wfOffer o) :
    (∀ e : OfferRs.Env, e.cache_dir_found = true →
        e.disk = some (OfferRs.encodeOffers offers) →
        OfferRs.retrieve_cached_offers e = .ok offers)
  ∧ OfferRs.decodeOffers (OfferRs.encodeOffers offers) = some offers
  ∧ (∀ o ∈ offers,
      OfferRs.getField (OfferRs.encodeOffer o) "run_from"
          = some (.str (dateToIso o.run_from))
        ∧ OfferRs.getField (OfferRs.encodeOffer o) "run_till"
          = some (.str (dateToIso o.run_till))) := by
  have hrt := decodeOffers_encodeOffers offers h
  refine ⟨fun e he1 he2 => ?_, hrt, fun o _ => ⟨rfl, rfl⟩⟩
  simp [OfferRs.retrieve_cached_offers, he1, he2, hrt]

/-- Witness for C7's amended claim: round-trip of a concrete singleton
sequence. -/
theorem cache_roundtrip_witness :
    OfferRs.decodeOffers (OfferRs.encodeOffers [eqA]) = some [eqA] :=
  (cache_roundtrip [eqA] (by decide)).2.1

/-- Witness for C6: a `Null` hotspot is dropped while its well-formed
neighbour still yields its offer. -/
theorem createOffer_silent_drop_witness :
    MainRs.create_offer JVal.null = none
  ∧ ([hotspotKgZero] ++ JVal.null :: []).filterMap MainRs.create_offer
      = [hotspotKgZero].filterMap MainRs.create_offer
          ++ (MainRs.create_offer JVal.null).toList
          ++ List.filterMap MainRs.create_offer [] :=
  ⟨(createOffer_silent_drop JVal.null [hotspotKgZero] []).1 rfl,
   (createOffer_silent_drop JVal.null [hotspotKgZero] []).2⟩
